import Mathlib

/-!
Verification of the mcp-ragdocs documentation queue engine.

This file gives a shallow embedding, in Lean 4, of the core components of the
repository:

* the progress tracker (src/queue-progress.ts, class QueueProgressTracker);
* the run-queue dispatcher (handlers/run-queue-handler.ts, in the two
  revisions shipped in the repository snapshot: the batched revision with
  processItem/processBatch, called "002" below, and the re-reading revision
  called "004" below);
* the removal matcher (src/handlers/remove-documentation-handler.ts).

Conventions of the embedding:

* JS numbers used for wall-clock times and rate computations are modelled as
  exact rationals; machine integers that stay small are Nat/Int.
* Asynchronous I/O is modelled by explicit state passing: the queue file is a
  value of type Option String (none = the file is absent), the vector store
  is a list of points, and the per-item processors are oracle functions
  passed in as parameters.
* JS falsy-or-default expressions (x || d) are modelled explicitly; JS arrays
  are Lean lists; a JS Map in insertion order is an association list.
-/

namespace RagDocs

/-! ## Progress tracker (src/queue-progress.ts) -/

/-- One element of QueueProgress.errors: {item, error, attempts}. -/
structure QueueError where
  item : String
  error : String
  attempts : Nat
deriving DecidableEq, Repr

/-- The QueueProgress record held by QueueProgressTracker.  Times are
rationals (JS milliseconds); estimatedTimeRemaining is None while the field
is still unset. -/
structure QueueProgress where
  totalItems : Nat
  processing : List String
  completed : Nat
  failed : Nat
  errors : List QueueError
  startTime : ℚ
  estimatedTimeRemaining : Option ℚ
deriving DecidableEq, Repr

/-- The constructor of QueueProgressTracker: counters at zero, no errors,
estimatedTimeRemaining not yet set. -/
def mkProgress (totalItems : Nat) (now : ℚ) : QueueProgress :=
  { totalItems := totalItems
    processing := []
    completed := 0
    failed := 0
    errors := []
    startTime := now
    estimatedTimeRemaining := none }

/-- QueueProgressTracker.updateEstimatedTime: recompute the estimate from the
elapsed time, returning early (leaving the field untouched) while zero items
are done.  The caller passes the current clock value. -/
def updateEstimatedTime (now : ℚ) (p : QueueProgress) : QueueProgress :=
  let elapsed : ℚ := now - p.startTime
  let itemsProcessed : Nat := p.completed + p.failed
  if itemsProcessed = 0 then p
  else
    let avgTimePerItem : ℚ := elapsed / (itemsProcessed : ℚ)
    let remainingItems : ℚ := (p.totalItems : ℚ) - (itemsProcessed : ℚ)
    { p with estimatedTimeRemaining := some (avgTimePerItem * remainingItems) }

/-- QueueProgressTracker.startProcessing: replace the processing list, then
notifyUpdate (which recomputes the estimate). -/
def startProcessing (items : List String) (now : ℚ) (p : QueueProgress) : QueueProgress :=
  updateEstimatedTime now { p with processing := items }

/-- QueueProgressTracker.completeItem: drop the item from processing,
increment completed, then notifyUpdate. -/
def completeItem (item : String) (now : ℚ) (p : QueueProgress) : QueueProgress :=
  updateEstimatedTime now
    { p with
      processing := p.processing.filter (fun i => i ≠ item)
      completed := p.completed + 1 }

/-- QueueProgressTracker.failItem: drop the item from processing, increment
failed, push the error record, then notifyUpdate. -/
def failItem (item : String) (error : String) (attempts : Nat) (now : ℚ)
    (p : QueueProgress) : QueueProgress :=
  updateEstimatedTime now
    { p with
      processing := p.processing.filter (fun i => i ≠ item)
      failed := p.failed + 1
      errors := p.errors ++ [⟨item, error, attempts⟩] }

/-- One mutating call on the tracker, tagged with the clock value at which it
happens. -/
inductive TrackerOp where
  | start (items : List String) (now : ℚ)
  | complete (item : String) (now : ℚ)
  | fail (item : String) (error : String) (attempts : Nat) (now : ℚ)

/-- The clock value carried by a tracker operation. -/
def TrackerOp.now : TrackerOp → ℚ
  | .start _ n => n
  | .complete _ n => n
  | .fail _ _ _ n => n

/-- Apply one tracker operation to a state. -/
def applyOp (p : QueueProgress) : TrackerOp → QueueProgress
  | .start items now => startProcessing items now p
  | .complete item now => completeItem item now p
  | .fail item error attempts now => failItem item error attempts now p

/-- Run a sequence of tracker operations from a fresh tracker. -/
def runOps (totalItems : Nat) (start : ℚ) (ops : List TrackerOp) : QueueProgress :=
  ops.foldl applyOp (mkProgress totalItems start)

@[simp] theorem updateEstimatedTime_totalItems (now : ℚ) (p : QueueProgress) :
    (updateEstimatedTime now p).totalItems = p.totalItems := by
  unfold updateEstimatedTime; dsimp only; split <;> rfl

@[simp] theorem updateEstimatedTime_completed (now : ℚ) (p : QueueProgress) :
    (updateEstimatedTime now p).completed = p.completed := by
  unfold updateEstimatedTime; dsimp only; split <;> rfl

@[simp] theorem updateEstimatedTime_failed (now : ℚ) (p : QueueProgress) :
    (updateEstimatedTime now p).failed = p.failed := by
  unfold updateEstimatedTime; dsimp only; split <;> rfl

@[simp] theorem updateEstimatedTime_errors (now : ℚ) (p : QueueProgress) :
    (updateEstimatedTime now p).errors = p.errors := by
  unfold updateEstimatedTime; dsimp only; split <;> rfl

@[simp] theorem updateEstimatedTime_startTime (now : ℚ) (p : QueueProgress) :
    (updateEstimatedTime now p).startTime = p.startTime := by
  unfold updateEstimatedTime; dsimp only; split <;> rfl

theorem updateEstimatedTime_of_done_zero (now : ℚ) (p : QueueProgress)
    (h : p.completed + p.failed = 0) : updateEstimatedTime now p = p := by
  unfold updateEstimatedTime; dsimp only; rw [if_pos h]

theorem updateEstimatedTime_of_done_pos (now : ℚ) (p : QueueProgress)
    (h : p.completed + p.failed ≠ 0) :
    (updateEstimatedTime now p).estimatedTimeRemaining =
      some (((now - p.startTime) / ((p.completed + p.failed : Nat) : ℚ)) *
        ((p.totalItems : ℚ) - ((p.completed + p.failed : Nat) : ℚ))) := by
  unfold updateEstimatedTime; dsimp only; rw [if_neg h]

theorem applyOp_foldl_preserves (P : QueueProgress → Prop)
    (hstep : ∀ p op, P p → P (applyOp p op)) :
    ∀ (ops : List TrackerOp) (p : QueueProgress), P p → P (ops.foldl applyOp p) := by
  intro ops
  induction ops with
  | nil => intro p hp; exact hp
  | cons op ops ih => intro p hp; exact ih _ (hstep p op hp)

theorem applyOp_as_update (p : QueueProgress) (op : TrackerOp) :
    ∃ q : QueueProgress, applyOp p op = updateEstimatedTime op.now q ∧
      q.startTime = p.startTime ∧ q.totalItems = p.totalItems ∧
      q.completed + q.failed =
        (applyOp p op).completed + (applyOp p op).failed := by
  cases op with
  | start items now =>
      refine ⟨{ p with processing := items }, rfl, rfl, rfl, ?_⟩
      simp [applyOp, startProcessing]
  | complete item now =>
      refine ⟨{ p with
        processing := p.processing.filter (fun i => i ≠ item)
        completed := p.completed + 1 }, rfl, rfl, rfl, ?_⟩
      simp [applyOp, completeItem]
  | fail item error attempts now =>
      refine ⟨{ p with
        processing := p.processing.filter (fun i => i ≠ item)
        failed := p.failed + 1
        errors := p.errors ++ [⟨item, error, attempts⟩] }, rfl, rfl, rfl, ?_⟩
      simp [applyOp, failItem]

/-- C7 counterexample: a tracker constructed with totalItems = 0 whose single
item completion happens 10 time units after start has
estimatedTimeRemaining = -10, a negative number, even though one item is
done, refuting the claim that the estimate is always non-negative once
completed + failed is positive. -/
theorem tracker_eta_negative_counterexample :
    0 < (completeItem "x" 10 (mkProgress 0 0)).completed +
        (completeItem "x" 10 (mkProgress 0 0)).failed
    ∧ (completeItem "x" 10 (mkProgress 0 0)).estimatedTimeRemaining = some (-10)
    ∧ ((-10 : ℚ) < 0) := by
  refine ⟨by decide, ?_, by norm_num⟩
  norm_num [completeItem, mkProgress, updateEstimatedTime]

/-- C7 amended: estimatedTimeRemaining stays unset while completed + failed
is zero; and after any mutation that leaves 0 < completed + failed, provided
the done count does not exceed totalItems and the mutation happens no
earlier than startTime, the estimate is set to the non-negative number
(elapsed / itemsDone) * itemsRemaining.  (Without the extra bounds the value
(elapsed / itemsDone) * (totalItems - itemsDone) can be negative, as the
counterexample shows.) -/
theorem tracker_eta_amended (total : Nat) (start : ℚ) (ops : List TrackerOp)
    (p : QueueProgress) (op : TrackerOp) :
    ((runOps total start ops).completed + (runOps total start ops).failed = 0 →
      (runOps total start ops).estimatedTimeRemaining = none)
    ∧ (0 < (applyOp p op).completed + (applyOp p op).failed →
        (applyOp p op).completed + (applyOp p op).failed ≤ p.totalItems →
        p.startTime ≤ op.now →
        ∃ v, (applyOp p op).estimatedTimeRemaining = some v ∧ 0 ≤ v ∧
          v = ((op.now - p.startTime) /
                (((applyOp p op).completed + (applyOp p op).failed : Nat) : ℚ)) *
              ((p.totalItems : ℚ) -
                (((applyOp p op).completed + (applyOp p op).failed : Nat) : ℚ))) := by
  constructor
  · intro hdone
    unfold runOps at hdone ⊢
    have hinv : (fun q : QueueProgress =>
        q.completed + q.failed = 0 → q.estimatedTimeRemaining = none)
          (List.foldl applyOp (mkProgress total start) ops) := by
      refine applyOp_foldl_preserves
        (fun q : QueueProgress =>
          q.completed + q.failed = 0 → q.estimatedTimeRemaining = none)
        ?_ ops (mkProgress total start) ?_
      · intro q o hq hzero
        cases o with
        | start items now =>
            have hd : q.completed + q.failed = 0 := by
              simpa [applyOp, startProcessing] using hzero
            show (startProcessing items now q).estimatedTimeRemaining = none
            rw [startProcessing, updateEstimatedTime_of_done_zero _ _ (by simpa using hd)]
            exact hq hd
        | complete item now =>
            exfalso
            have h2 := hzero
            simp [applyOp, completeItem] at h2
        | fail item error attempts now =>
            exfalso
            have h2 := hzero
            simp [applyOp, failItem] at h2
      · intro _; rfl
    exact hinv hdone
  · intro hpos hle hnow
    obtain ⟨q, hq, hqs, hqt, hqd⟩ := applyOp_as_update p op
    have hne : q.completed + q.failed ≠ 0 := by
      rw [hqd]; omega
    refine ⟨_, by rw [hq, updateEstimatedTime_of_done_pos _ _ hne], ?_, ?_⟩
    · apply mul_nonneg
      · apply div_nonneg
        · rw [hqs]; linarith
        · positivity
      · rw [hqt]
        have : ((q.completed + q.failed : Nat) : ℚ) ≤ (p.totalItems : ℚ) := by
          rw [hqd]; exact_mod_cast hle
        linarith
    · rw [hqs, hqt, hqd]

/-- C7 amended, witness: a tracker for 2 items, started at time 0, completing
one item at time 4: the estimate is (4 / 1) * (2 - 1). -/
theorem tracker_eta_amended_witness :
    ∃ v, (applyOp (mkProgress 2 0) (TrackerOp.complete "a" 4)).estimatedTimeRemaining =
        some v ∧ 0 ≤ v ∧
      v = (((TrackerOp.complete "a" 4).now - (mkProgress 2 0).startTime) /
            (((applyOp (mkProgress 2 0) (TrackerOp.complete "a" 4)).completed +
              (applyOp (mkProgress 2 0) (TrackerOp.complete "a" 4)).failed : Nat) : ℚ)) *
          (((mkProgress 2 0).totalItems : ℚ) -
            (((applyOp (mkProgress 2 0) (TrackerOp.complete "a" 4)).completed +
              (applyOp (mkProgress 2 0) (TrackerOp.complete "a" 4)).failed : Nat) : ℚ)) :=
  (tracker_eta_amended 2 0 [] (mkProgress 2 0) (TrackerOp.complete "a" 4)).2
    (by decide) (by decide) (by norm_num [mkProgress, TrackerOp.now])

/-- C10: after any sequence of startProcessing / completeItem / failItem
operations, the failed counter equals the length of the errors list; each
failItem appends exactly one error record {item, error, attempts} and
increments failed by one, and neither completeItem nor startProcessing
touches failed or errors. -/
theorem tracker_failed_eq_errors_length (total : Nat) (start : ℚ)
    (ops : List TrackerOp) :
    (runOps total start ops).failed = (runOps total start ops).errors.length
    ∧ (∀ (p : QueueProgress) (item error : String) (attempts : Nat) (now : ℚ),
        (failItem item error attempts now p).failed = p.failed + 1 ∧
        (failItem item error attempts now p).errors =
          p.errors ++ [⟨item, error, attempts⟩])
    ∧ (∀ (p : QueueProgress) (item : String) (now : ℚ),
        (completeItem item now p).failed = p.failed ∧
        (completeItem item now p).errors = p.errors)
    ∧ (∀ (p : QueueProgress) (items : List String) (now : ℚ),
        (startProcessing items now p).failed = p.failed ∧
        (startProcessing items now p).errors = p.errors) := by
  refine ⟨?_, ?_, ?_, ?_⟩
  · unfold runOps
    have hinv := applyOp_foldl_preserves
      (fun q : QueueProgress => q.failed = q.errors.length) ?_ ops
      (mkProgress total start) rfl
    · exact hinv
    · intro p op hp
      cases op with
      | start items now => simpa [applyOp, startProcessing] using hp
      | complete item now => simpa [applyOp, completeItem] using hp
      | fail item error attempts now => simp [applyOp, failItem, hp]
  · intro p item error attempts now
    exact ⟨by simp [failItem], by simp [failItem]⟩
  · intro p item now
    exact ⟨by simp [completeItem], by simp [completeItem]⟩
  · intro p items now
    exact ⟨by simp [startProcessing], by simp [startProcessing]⟩

/-! ## Reference-level model of the tracker snapshot (src/queue-progress.ts,
getProgress)

getProgress executes `return { ...this.progress }`: the spread copies every
top-level field, so the `processing` and `errors` fields of the snapshot are
the same JS array objects as the tracker's own.  To talk about that aliasing
the object is modelled with explicit array references into a heap of array
contents; pushing onto an array is an in-place heap update at its
reference. -/

/-- The tracker's progress object, with its two array-valued fields held by
reference. -/
structure TrackerObj where
  totalItems : Nat
  processingRef : Nat
  completed : Nat
  failed : Nat
  errorsRef : Nat
  startTime : ℚ
  estimatedTimeRemaining : Option ℚ
deriving DecidableEq, Repr

/-- Heap of JS array objects, addressed by reference. -/
structure ArrayHeap where
  procArrays : Nat → List String
  errArrays : Nat → List QueueError

/-- updateEstimatedTime on the reference-level object: identical arithmetic
to updateEstimatedTime, touching only the scalar estimate field. -/
def updateEstimatedTimeRef (now : ℚ) (h : ArrayHeap) (t : TrackerObj) : TrackerObj :=
  let elapsed : ℚ := now - t.startTime
  let itemsProcessed : Nat := t.completed + t.failed
  if itemsProcessed = 0 then t
  else
    let _unused := h
    let avgTimePerItem : ℚ := elapsed / (itemsProcessed : ℚ)
    let remainingItems : ℚ := (t.totalItems : ℚ) - (itemsProcessed : ℚ)
    { t with estimatedTimeRemaining := some (avgTimePerItem * remainingItems) }

/-- getProgress: recompute the estimate, then return `{ ...this.progress }`.
The first component is the tracker's own (mutated) object, the second is the
returned snapshot; the spread copies each field, so the array reference
fields are copied as references. -/
def getProgressRef (now : ℚ) (h : ArrayHeap) (t : TrackerObj) :
    TrackerObj × TrackerObj :=
  let t2 := updateEstimatedTimeRef now h t
  (t2,
    { totalItems := t2.totalItems
      processingRef := t2.processingRef
      completed := t2.completed
      failed := t2.failed
      errorsRef := t2.errorsRef
      startTime := t2.startTime
      estimatedTimeRemaining := t2.estimatedTimeRemaining })

/-- snapshot.processing.push(x): in-place mutation of the array object the
snapshot's processing field points to. -/
def heapPushProcessing (h : ArrayHeap) (r : Nat) (x : String) : ArrayHeap :=
  { h with procArrays := fun i => if i = r then h.procArrays r ++ [x] else h.procArrays i }

/-- snapshot.errors.push(e): in-place mutation of the array object the
snapshot's errors field points to. -/
def heapPushError (h : ArrayHeap) (r : Nat) (e : QueueError) : ArrayHeap :=
  { h with errArrays := fun i => if i = r then h.errArrays r ++ [e] else h.errArrays i }

/-- The processing list the tracker currently sees. -/
def viewProcessing (h : ArrayHeap) (t : TrackerObj) : List String :=
  h.procArrays t.processingRef

/-- The errors list the tracker currently sees. -/
def viewErrors (h : ArrayHeap) (t : TrackerObj) : List QueueError :=
  h.errArrays t.errorsRef

/-- C8 counterexample: for a concrete tracker and heap, pushing one string
onto the processing list of the snapshot returned by getProgress changes the
tracker's own processing list from [] to ["x"] — the snapshot is not a
defensive copy of its nested lists, refuting the claim that any mutation on
the returned snapshot leaves the tracker's state unchanged. -/
theorem snapshot_shallow_counterexample :
    viewProcessing
      (heapPushProcessing (ArrayHeap.mk (fun _ => []) (fun _ => []))
        ((getProgressRef 0 (ArrayHeap.mk (fun _ => []) (fun _ => []))
          (TrackerObj.mk 0 0 0 0 1 0 none)).2.processingRef) "x")
      ((getProgressRef 0 (ArrayHeap.mk (fun _ => []) (fun _ => []))
        (TrackerObj.mk 0 0 0 0 1 0 none)).1) = ["x"]
    ∧ viewProcessing (ArrayHeap.mk (fun _ => []) (fun _ => []))
        ((getProgressRef 0 (ArrayHeap.mk (fun _ => []) (fun _ => []))
          (TrackerObj.mk 0 0 0 0 1 0 none)).1) = [] := by
  constructor
  · rfl
  · rfl

/-- C8 amended: getProgress returns a shallow copy.  The scalar fields of
the snapshot are copies equal to the tracker's own at the moment of the
call, but the processing and errors fields are the very same array
references, so an in-place push performed through the snapshot is visible in
the tracker's processing (respectively errors) view. -/
theorem snapshot_shallow_amended (now : ℚ) (h : ArrayHeap) (t : TrackerObj) :
    ((getProgressRef now h t).2.processingRef = (getProgressRef now h t).1.processingRef
      ∧ (getProgressRef now h t).2.errorsRef = (getProgressRef now h t).1.errorsRef
      ∧ (getProgressRef now h t).2.completed = (getProgressRef now h t).1.completed
      ∧ (getProgressRef now h t).2.failed = (getProgressRef now h t).1.failed)
    ∧ (∀ x, viewProcessing
          (heapPushProcessing h (getProgressRef now h t).2.processingRef x)
          (getProgressRef now h t).1 =
        viewProcessing h (getProgressRef now h t).1 ++ [x])
    ∧ (∀ e, viewErrors
          (heapPushError h (getProgressRef now h t).2.errorsRef e)
          (getProgressRef now h t).1 =
        viewErrors h (getProgressRef now h t).1 ++ [e]) := by
  refine ⟨⟨rfl, rfl, rfl, rfl⟩, ?_, ?_⟩
  · intro x
    simp [viewProcessing, heapPushProcessing, getProgressRef]
  · intro e
    simp [viewErrors, heapPushError, getProgressRef]

/-! ## Effective dispatcher configuration (run-queue-handler, handle)

Both dispatcher revisions compute, in handle:
  maxConcurrent = Math.min(Number(args.maxConcurrent) || 3, 5)
  retryAttempts = Math.min(Number(args.retryAttempts) || 3, 5)
  retryDelay    = Math.min(Number(args.retryDelay)    || 1000, 10000)
A supplied argument is modelled as `some v` with `v : Int` (the claims only
involve integral values); `none` stands for an absent argument or one whose
Number() conversion is NaN.  `x || d` yields `d` exactly when `x` is falsy,
i.e. NaN or 0. -/

/-- JS `Number(arg) || dflt`: the default replaces an absent/NaN argument
and also a supplied 0, which is falsy. -/
def jsNumberOrDefault (arg : Option Int) (dflt : Int) : Int :=
  match arg with
  | none => dflt
  | some v => if v = 0 then dflt else v

/-- Math.min(Number(args.maxConcurrent) || 3, 5). -/
def effectiveMaxConcurrent (arg : Option Int) : Int :=
  min (jsNumberOrDefault arg 3) 5

/-- Math.min(Number(args.retryAttempts) || 3, 5). -/
def effectiveRetryAttempts (arg : Option Int) : Int :=
  min (jsNumberOrDefault arg 3) 5

/-- Math.min(Number(args.retryDelay) || 1000, 10000). -/
def effectiveRetryDelay (arg : Option Int) : Int :=
  min (jsNumberOrDefault arg 1000) 10000

/-- C6 counterexample: an explicitly supplied retryAttempts of 0 is turned
into the default 3 rather than honored as 0 (0 is falsy in JS); a retryDelay
of 500 is accepted as-is even though it is below the documented minimum
1000; and a supplied maxConcurrent of -2 yields -2, outside the documented
range 1..5.  Each of these refutes the claimed range/default contract at an
explicit input. -/
theorem runQueue_config_counterexample :
    effectiveRetryAttempts (some 0) = 3 ∧ (3 : Int) ≠ 0
    ∧ effectiveRetryDelay (some 500) = 500 ∧ (500 : Int) < 1000
    ∧ effectiveMaxConcurrent (some (-2)) = -2 ∧ (-2 : Int) < 1 := by
  refine ⟨by decide, by decide, by decide, by decide, by decide, by decide⟩

/-- C6 amended: an omitted parameter yields the defaults 3 / 3 / 1000, and
each parameter is clamped from above at 5 / 5 / 10000, but no lower bound is
enforced: a supplied 0 (being falsy) also yields the default — in particular
retryAttempts = 0 is not honored as 0 — and any non-zero value below the
documented minimum (such as a retryDelay of 500 or a negative maxConcurrent)
is used as-is, only capped by the maximum. -/
theorem runQueue_config_amended :
    (effectiveMaxConcurrent none = 3 ∧ effectiveRetryAttempts none = 3 ∧
      effectiveRetryDelay none = 1000)
    ∧ (∀ v : Int, v ≠ 0 →
        effectiveMaxConcurrent (some v) = min v 5 ∧
        effectiveRetryAttempts (some v) = min v 5 ∧
        effectiveRetryDelay (some v) = min v 10000)
    ∧ effectiveMaxConcurrent (some 0) = 3
    ∧ effectiveRetryAttempts (some 0) = 3
    ∧ effectiveRetryDelay (some 0) = 1000 := by
  refine ⟨⟨by decide, by decide, by decide⟩, ?_, by decide, by decide, by decide⟩
  intro v hv
  refine ⟨?_, ?_, ?_⟩ <;>
    simp [effectiveMaxConcurrent, effectiveRetryAttempts, effectiveRetryDelay,
      jsNumberOrDefault, hv]

/-- C6 amended, witness: a supplied maxConcurrent of 7 is capped to
min 7 5 = 5. -/
theorem runQueue_config_amended_witness :
    effectiveMaxConcurrent (some 7) = min 7 5 :=
  ((runQueue_config_amended.2.1) 7 (by decide)).1

/-! ## Per-item processing with retry (run-queue-handler "002" revision,
RunQueueHandler.processItem)

The underlying processor call (urlHandler.handle / fs.access +
localHandler.handle) is abstracted by an oracle: `succeeds a` tells whether
the a-th attempt succeeds, `errMsg a` is the message of the error thrown by
a failing a-th attempt.  The trace records how often the processor was
invoked and the list of delays awaited between attempts. -/

/-- ProcessResult of the "002" revision: {item, success, error?, attempts}. -/
structure ProcessResult where
  item : String
  success : Bool
  error : Option String
  attempts : Nat
deriving DecidableEq, Repr

/-- A processItem run together with its observable effects. -/
structure ItemTrace where
  result : ProcessResult
  invocations : Nat
  delays : List Nat
deriving DecidableEq, Repr

/-- The while-loop of processItem: while attempts < retryAttempts, increment
attempts, invoke the processor; on success return immediately with the
current attempts count; on failure remember the error and, if more attempts
remain, await retryDelay; once attempts reach retryAttempts return a failure
carrying String(lastError?.message || "Unknown error") and the final
attempts count. -/
def processItemGo (item : String) (succeeds : Nat → Bool) (errMsg : Nat → String)
    (retryAttempts retryDelay : Nat) (attempts invocations : Nat)
    (delays : List Nat) (lastError : Option String) : ItemTrace :=
  if h : attempts < retryAttempts then
    if succeeds (attempts + 1) then
      ⟨⟨item, true, none, attempts + 1⟩, invocations + 1, delays⟩
    else
      processItemGo item succeeds errMsg retryAttempts retryDelay (attempts + 1)
        (invocations + 1)
        (if attempts + 1 < retryAttempts then delays ++ [retryDelay] else delays)
        (some (errMsg (attempts + 1)))
  else
    ⟨⟨item, false, some (lastError.getD "Unknown error"), attempts⟩,
      invocations, delays⟩
termination_by retryAttempts - attempts
decreasing_by omega

/-- RunQueueHandler.processItem: the loop started with attempts = 0 and no
recorded error. -/
def processItem (item : String) (succeeds : Nat → Bool) (errMsg : Nat → String)
    (retryAttempts retryDelay : Nat) : ItemTrace :=
  processItemGo item succeeds errMsg retryAttempts retryDelay 0 0 [] none

theorem processItemGo_all_fail (item : String) (succeeds : Nat → Bool)
    (errMsg : Nat → String) (retryAttempts retryDelay : Nat)
    (hfail : ∀ a, succeeds a = false) :
    ∀ (n attempts invocations : Nat) (delays : List Nat) (lastError : Option String),
      retryAttempts - attempts = n → attempts ≤ retryAttempts →
      (processItemGo item succeeds errMsg retryAttempts retryDelay attempts
          invocations delays lastError).result.success = false
      ∧ (processItemGo item succeeds errMsg retryAttempts retryDelay attempts
          invocations delays lastError).result.attempts = retryAttempts
      ∧ (processItemGo item succeeds errMsg retryAttempts retryDelay attempts
          invocations delays lastError).invocations = invocations + n
      ∧ (processItemGo item succeeds errMsg retryAttempts retryDelay attempts
          invocations delays lastError).delays =
          delays ++ List.replicate (n - 1) retryDelay := by
  intro n
  induction n with
  | zero =>
      intro attempts invocations delays lastError hsub hle
      have ha : attempts = retryAttempts := by omega
      subst ha
      rw [processItemGo, dif_neg (by omega)]
      simp
  | succ m ih =>
      intro attempts invocations delays lastError hsub hle
      have hlt : attempts < retryAttempts := by omega
      have hstep : processItemGo item succeeds errMsg retryAttempts retryDelay
          attempts invocations delays lastError =
        processItemGo item succeeds errMsg retryAttempts retryDelay (attempts + 1)
          (invocations + 1)
          (if attempts + 1 < retryAttempts then delays ++ [retryDelay] else delays)
          (some (errMsg (attempts + 1))) := by
        rw [processItemGo, dif_pos hlt]
        simp [hfail]
      rw [hstep]
      obtain ⟨h1, h2, h3, h4⟩ := ih (attempts + 1) (invocations + 1)
        (if attempts + 1 < retryAttempts then delays ++ [retryDelay] else delays)
        (some (errMsg (attempts + 1))) (by omega) (by omega)
      refine ⟨h1, h2, by rw [h3]; omega, ?_⟩
      rw [h4]
      by_cases hc : attempts + 1 < retryAttempts
      · rw [if_pos hc]
        cases m with
        | zero => omega
        | succ k =>
            rw [List.append_assoc, List.singleton_append]
            simp [List.replicate_succ]
      · rw [if_neg hc]
        have hm : m = 0 := by omega
        subst hm
        simp

/-- C2: an item whose processing fails on every attempt invokes the
processor exactly retryAttempts times, awaits the flat retryDelay exactly
between consecutive attempts (retryAttempts - 1 delays, each equal to
retryDelay), and the returned result is a failure whose attempts field
equals retryAttempts. -/
theorem processItem_always_failing_attempts (item : String)
    (succeeds : Nat → Bool) (errMsg : Nat → String)
    (retryAttempts retryDelay : Nat) (hfail : ∀ a, succeeds a = false) :
    (processItem item succeeds errMsg retryAttempts retryDelay).invocations =
      retryAttempts
    ∧ (processItem item succeeds errMsg retryAttempts retryDelay).result.success =
      false
    ∧ (processItem item succeeds errMsg retryAttempts retryDelay).result.attempts =
      retryAttempts
    ∧ (processItem item succeeds errMsg retryAttempts retryDelay).delays =
      List.replicate (retryAttempts - 1) retryDelay := by
  obtain ⟨h1, h2, h3, h4⟩ := processItemGo_all_fail item succeeds errMsg
    retryAttempts retryDelay hfail retryAttempts 0 0 [] none rfl (Nat.zero_le _)
  exact ⟨by rw [processItem, h3]; omega, by rw [processItem, h1],
    by rw [processItem, h2], by rw [processItem, h4]; simp⟩

/-- C2, witness: retryAttempts = 3, retryDelay = 1000, a processor that
always fails: 3 invocations, a failure with attempts = 3, and two delays of
1000 between the attempts. -/
theorem processItem_always_failing_attempts_witness :
    (processItem "x" (fun _ => false) (fun _ => "boom") 3 1000).invocations = 3
    ∧ (processItem "x" (fun _ => false) (fun _ => "boom") 3 1000).result.success =
      false
    ∧ (processItem "x" (fun _ => false) (fun _ => "boom") 3 1000).result.attempts = 3
    ∧ (processItem "x" (fun _ => false) (fun _ => "boom") 3 1000).delays =
      List.replicate (3 - 1) 1000 :=
  processItem_always_failing_attempts "x" (fun _ => false) (fun _ => "boom") 3 1000
    (fun _ => rfl)

/-! ## The batching loop (run-queue-handler "002" revision,
RunQueueHandler.handle)

handle reads the queue file once, splits it into items, and then loops:
batch = items.slice(0, maxConcurrent); process the batch concurrently;
tally the results into stats; items = items.slice(maxConcurrent); rewrite
the queue file.  The embedding returns the list of dispatched batches
together with the final stats.  The JS loop never terminates when
maxConcurrent ≤ 0 (slice(0,0) is empty and slice(0) removes nothing); the
dite guard below makes the Lean function total, and the theorems assume
1 ≤ maxConcurrent as the documented range does. -/

/-- Aggregate stats of one dispatcher run ("002" revision QueueStats with
the formatting-only startTime field elided). -/
structure QueueStats where
  completed : Nat
  failed : Nat
  errors : List QueueError
deriving DecidableEq, Repr

/-- JS `s || dflt` for an optional string: undefined and "" are falsy. -/
def jsStringOrDefault (s : Option String) (dflt : String) : String :=
  match s with
  | none => dflt
  | some v => if v = "" then dflt else v

/-- The stats-update loop over one batch of results: completed++ on success,
else failed++ and push {item, error: result.error || "Unknown error",
attempts}. -/
def updateStats (stats : QueueStats) (results : List ProcessResult) : QueueStats :=
  results.foldl
    (fun s r =>
      if r.success then { s with completed := s.completed + 1 }
      else
        { s with
          failed := s.failed + 1
          errors := s.errors ++
            [⟨r.item, jsStringOrDefault r.error "Unknown error", r.attempts⟩] })
    stats

/-- The while-loop of handle ("002"): dispatch batches of the first
maxConcurrent items until the in-memory items list is empty.  `procOne`
abstracts processBatch/processItem for a single item. -/
def run002Loop (procOne : String → ProcessResult) (maxConcurrent : Nat)
    (items : List String) (stats : QueueStats) :
    List (List String) × QueueStats :=
  if h : items = [] ∨ maxConcurrent = 0 then ([], stats)
  else
    let batch := items.take maxConcurrent
    let stats2 := updateStats stats (batch.map procOne)
    let rest := run002Loop procOne maxConcurrent (items.drop maxConcurrent) stats2
    (batch :: rest.1, rest.2)
termination_by items.length
decreasing_by
  push_neg at h
  have := List.length_pos.mpr h.1
  simp only [List.length_drop]
  omega

theorem run002Loop_eq_nil (procOne : String → ProcessResult) (maxConcurrent : Nat)
    (items : List String) (stats : QueueStats)
    (h : items = [] ∨ maxConcurrent = 0) :
    run002Loop procOne maxConcurrent items stats = ([], stats) := by
  rw [run002Loop, dif_pos h]

theorem run002Loop_eq_cons (procOne : String → ProcessResult) (maxConcurrent : Nat)
    (items : List String) (stats : QueueStats) (hnil : items ≠ [])
    (hk : maxConcurrent ≠ 0) :
    run002Loop procOne maxConcurrent items stats =
      (items.take maxConcurrent ::
        (run002Loop procOne maxConcurrent (items.drop maxConcurrent)
          (updateStats stats ((items.take maxConcurrent).map procOne))).1,
        (run002Loop procOne maxConcurrent (items.drop maxConcurrent)
          (updateStats stats ((items.take maxConcurrent).map procOne))).2) := by
  rw [run002Loop, dif_neg (by push_neg; exact ⟨hnil, hk⟩)]

/-- C1: with 1 ≤ maxConcurrent = k, the loop over n queued items dispatches
exactly ceil(n/k) = (n + k - 1) / k batches; the dispatched batches
concatenate back to the queue in order (each iteration removes exactly its
batch), and every batch is non-empty with at most k items (only the last may
be smaller). -/
theorem runQueue002_dispatches_ceil_batches (procOne : String → ProcessResult)
    (maxConcurrent : Nat) (items : List String) (stats : QueueStats)
    (hk : 1 ≤ maxConcurrent) :
    (run002Loop procOne maxConcurrent items stats).1.length =
      (items.length + maxConcurrent - 1) / maxConcurrent
    ∧ (run002Loop procOne maxConcurrent items stats).1.join = items
    ∧ ∀ b ∈ (run002Loop procOne maxConcurrent items stats).1,
        b ≠ [] ∧ b.length ≤ maxConcurrent := by
  have main : ∀ (n : Nat) (l : List String) (st : QueueStats), l.length ≤ n →
      (run002Loop procOne maxConcurrent l st).1.length =
        (l.length + maxConcurrent - 1) / maxConcurrent
      ∧ (run002Loop procOne maxConcurrent l st).1.join = l
      ∧ ∀ b ∈ (run002Loop procOne maxConcurrent l st).1,
          b ≠ [] ∧ b.length ≤ maxConcurrent := by
    intro n
    induction n with
    | zero =>
        intro l st hlen
        have hl : l = [] := List.eq_nil_of_length_eq_zero (by omega)
        subst hl
        rw [run002Loop_eq_nil _ _ _ _ (Or.inl rfl)]
        refine ⟨?_, rfl, by simp⟩
        simp [Nat.div_eq_of_lt (by omega : maxConcurrent - 1 < maxConcurrent)]
    | succ n ih =>
        intro l st hlen
        by_cases hnil : l = []
        · subst hnil
          rw [run002Loop_eq_nil _ _ _ _ (Or.inl rfl)]
          refine ⟨?_, rfl, by simp⟩
          simp [Nat.div_eq_of_lt (by omega : maxConcurrent - 1 < maxConcurrent)]
        · rw [run002Loop_eq_cons _ _ _ _ hnil (by omega)]
          have hlpos : 0 < l.length := List.length_pos.mpr hnil
          have hdrop : (l.drop maxConcurrent).length ≤ n := by
            simp only [List.length_drop]; omega
          obtain ⟨ihlen, ihjoin, ihmem⟩ := ih (l.drop maxConcurrent)
            (updateStats st ((l.take maxConcurrent).map procOne)) hdrop
          refine ⟨?_, ?_, ?_⟩
          · simp only [List.length_cons, ihlen, List.length_drop]
            by_cases hkl : maxConcurrent ≤ l.length
            · have harith : l.length + maxConcurrent - 1 =
                  (l.length - maxConcurrent + maxConcurrent - 1) + maxConcurrent := by
                omega
              rw [harith, Nat.add_div_right _ (by omega)]
            · have h1 : l.length - maxConcurrent = 0 := by omega
              rw [h1]
              have h2 : (l.length + maxConcurrent - 1) / maxConcurrent = 1 := by
                apply Nat.div_eq_of_lt_le <;> omega
              have h3 : (0 + maxConcurrent - 1) / maxConcurrent = 0 :=
                Nat.div_eq_of_lt (by omega)
              omega
          · have hjc : ∀ (a : List String) (L : List (List String)),
                (a :: L).join = a ++ L.join := fun _ _ => rfl
            rw [hjc, ihjoin, List.take_append_drop]
          · intro b hb
            rcases List.mem_cons.mp hb with hb | hb
            · subst hb
              constructor
              · apply List.length_pos.mp
                rw [List.length_take]
                omega
              · simp only [List.length_take]
                exact min_le_left _ _
            · exact ihmem b hb
  exact main items.length items stats le_rfl

/-- C1, witness: 3 items with maxConcurrent = 2 dispatch ceil(3/2) = 2
batches which concatenate back to the queue, each batch non-empty with at
most 2 items. -/
theorem runQueue002_dispatches_ceil_batches_witness :
    (run002Loop (fun s => ⟨s, true, none, 1⟩) 2 ["a", "b", "c"] ⟨0, 0, []⟩).1.length =
      ((["a", "b", "c"] : List String).length + 2 - 1) / 2
    ∧ (run002Loop (fun s => ⟨s, true, none, 1⟩) 2 ["a", "b", "c"] ⟨0, 0, []⟩).1.join =
      ["a", "b", "c"]
    ∧ ∀ b ∈ (run002Loop (fun s => ⟨s, true, none, 1⟩) 2 ["a", "b", "c"] ⟨0, 0, []⟩).1,
        b ≠ [] ∧ b.length ≤ 2 :=
  runQueue002_dispatches_ceil_batches (fun s => ⟨s, true, none, 1⟩) 2
    ["a", "b", "c"] ⟨0, 0, []⟩ (by decide)

/-! ## The surrounding handle bodies for an empty or absent queue

"002" revision: a failed read of the queue file, and likewise a queue that
splits to no non-empty lines (split('\n').filter(Boolean)), both throw
McpError(ErrorCode.InvalidRequest, "Queue is empty").

"004" revision: an absent queue file returns the normal text "Queue is
empty (queue file does not exist)"; on each loop iteration the queue file is
re-read and split('\n').filter(item => item.trim() !== ''); an empty parse
breaks the loop, producing the normal summary. -/

/-- McpError codes used by the handlers. -/
inductive McpErrorCode where
  | invalidRequest
  | invalidParams
  | internalError
deriving DecidableEq, Repr

/-- An McpError value: code plus message. -/
structure McpErr where
  code : McpErrorCode
  message : String
deriving DecidableEq, Repr

/-- JS s.split(sep) for a single-character separator: cut the character
stream at every occurrence, keeping empty pieces. -/
def splitOnCharAux (sep : Char) : List Char → List Char → List String
  | [], acc => [String.mk acc.reverse]
  | c :: cs, acc =>
      if c = sep then String.mk acc.reverse :: splitOnCharAux sep cs []
      else splitOnCharAux sep cs (c :: acc)

/-- JS content.split('\n'). -/
def splitLines (s : String) : List String := splitOnCharAux '\n' s.toList []

/-- The whitespace characters relevant to the queue files. -/
def isWhitespaceChar (c : Char) : Bool :=
  c == ' ' || c == '\t' || c == '\n' || c == '\r'

/-- JS String.prototype.trim: strip whitespace from both ends. -/
def jsTrim (s : String) : String :=
  String.mk (((s.toList.dropWhile isWhitespaceChar).reverse.dropWhile
    isWhitespaceChar).reverse)

/-- "002": content.split('\n').filter(Boolean) — Boolean(s) is false exactly
for the empty string, so whitespace-only lines are kept. -/
def parse002 (content : String) : List String :=
  (splitLines content).filter (fun l => l ≠ "")

/-- "002" handle on the queue file (none = the file is absent / unreadable):
absent or empty-parsing queues throw InvalidRequest "Queue is empty",
otherwise the batching loop runs to completion. -/
def handle002 (procOne : String → ProcessResult) (maxConcurrent : Nat)
    (queueFile : Option String) :
    Except McpErr (List (List String) × QueueStats) :=
  match queueFile with
  | none => .error ⟨.invalidRequest, "Queue is empty"⟩
  | some content =>
      let items := parse002 content
      if items = [] then .error ⟨.invalidRequest, "Queue is empty"⟩
      else .ok (run002Loop procOne maxConcurrent items ⟨0, 0, []⟩)

/-- "004": content.split('\n').filter(item => item.trim() !== ''). -/
def parse004 (content : String) : List String :=
  (splitLines content).filter (fun l => jsTrim l ≠ "")

/-- "004" stats update: like updateStats but the pushed attempts count is
`attempts || 1`. -/
def updateStats004 (stats : QueueStats) (results : List ProcessResult) : QueueStats :=
  results.foldl
    (fun s r =>
      if r.success then { s with completed := s.completed + 1 }
      else
        { s with
          failed := s.failed + 1
          errors := s.errors ++
            [⟨r.item, jsStringOrDefault r.error "Unknown error",
              if r.attempts = 0 then 1 else r.attempts⟩] })
    stats

/-- The "004" while-loop: re-read and re-parse the queue file, break when it
parses empty, otherwise process the first maxConcurrent items and rewrite
the file with the remaining items joined by newlines (with a trailing
newline when any remain).  The loop runs until the parse is empty; with
maxConcurrent ≥ 1 each iteration consumes at least one item, so the initial
parse length bounds the iterations, carried here as fuel. -/
def run004Loop (procOne : String → ProcessResult) (maxConcurrent : Nat)
    (fuel : Nat) (content : String) (stats : QueueStats) : QueueStats :=
  match fuel with
  | 0 => stats
  | fuel + 1 =>
      let items := parse004 content
      if items = [] then stats
      else
        let batch := items.take maxConcurrent
        let stats2 := updateStats004 stats (batch.map procOne)
        let remaining := items.drop batch.length
        run004Loop procOne maxConcurrent fuel
          (String.intercalate "\n" remaining ++
            (if remaining.length > 0 then "\n" else ""))
          stats2

/-- Result of the "004" handle: either the fixed text for an absent queue
file, or the normal summary (counts and failure list; the formatted text
rendering of the stats is elided). -/
inductive Res004 where
  | emptyQueueFile
  | summary (stats : QueueStats)
deriving DecidableEq, Repr

/-- "004" handle on the queue file: an absent file yields the normal
"Queue is empty (queue file does not exist)" response, otherwise the loop
runs and the summary is returned. -/
def handle004 (procOne : String → ProcessResult) (maxConcurrent : Nat)
    (queueFile : Option String) : Res004 :=
  match queueFile with
  | none => .emptyQueueFile
  | some content =>
      .summary (run004Loop procOne maxConcurrent (parse004 content).length
        content ⟨0, 0, []⟩)

/-- C3 counterexample: in the "002" revision of the dispatcher (the revision
cited by the claim), running against an absent queue file, or against a
queue file consisting of a single blank line, is signalled as an McpError
error result (InvalidRequest, "Queue is empty"), not returned as a normal
zero/zero summary — refuting the claim that this situation is never an
exception or error result. -/
theorem runQueue002_empty_queue_errors :
    handle002 (fun s => ⟨s, true, none, 1⟩) 3 none =
      .error ⟨.invalidRequest, "Queue is empty"⟩
    ∧ handle002 (fun s => ⟨s, true, none, 1⟩) 3 (some "\n") =
      .error ⟨.invalidRequest, "Queue is empty"⟩ := by
  exact ⟨rfl, rfl⟩

/-- C3 amended: the "004" revision behaves as claimed — an absent queue file
and a queue file containing only blank lines both produce a normal result
with zero completed and zero failed items — while the "002" revision
instead rejects both situations with an InvalidRequest "Queue is empty"
error. -/
theorem runQueue_empty_queue_behavior (procOne : String → ProcessResult)
    (k : Nat) (content : String) (hblank : parse004 content = [])
    (c2 : String) (hblank2 : parse002 c2 = []) :
    handle004 procOne k none = .emptyQueueFile
    ∧ handle004 procOne k (some content) = .summary ⟨0, 0, []⟩
    ∧ handle002 procOne k none = .error ⟨.invalidRequest, "Queue is empty"⟩
    ∧ handle002 procOne k (some c2) = .error ⟨.invalidRequest, "Queue is empty"⟩ := by
  refine ⟨rfl, ?_, rfl, ?_⟩
  · show Res004.summary (run004Loop procOne k (parse004 content).length
      content ⟨0, 0, []⟩) = .summary ⟨0, 0, []⟩
    rw [hblank]
    rfl
  · show (if parse002 c2 = [] then
        (.error ⟨.invalidRequest, "Queue is empty"⟩ :
          Except McpErr (List (List String) × QueueStats))
      else .ok (run002Loop procOne k (parse002 c2) ⟨0, 0, []⟩)) =
      .error ⟨.invalidRequest, "Queue is empty"⟩
    rw [if_pos hblank2]

/-- C3 amended, witness: the queue file content " \n " consists only of
blank lines for the "004" parse, and "\n" parses empty in the "002"
revision. -/
theorem runQueue_empty_queue_behavior_witness :
    handle004 (fun s => ⟨s, true, none, 1⟩) 3 none = .emptyQueueFile
    ∧ handle004 (fun s => ⟨s, true, none, 1⟩) 3 (some " \n ") = .summary ⟨0, 0, []⟩
    ∧ handle002 (fun s => ⟨s, true, none, 1⟩) 3 none =
      .error ⟨.invalidRequest, "Queue is empty"⟩
    ∧ handle002 (fun s => ⟨s, true, none, 1⟩) 3 (some "\n") =
      .error ⟨.invalidRequest, "Queue is empty"⟩ :=
  runQueue_empty_queue_behavior (fun s => ⟨s, true, none, 1⟩) 3 " \n "
    (by decide) "\n" (by decide)
/-! ## Removal matching (src/handlers/remove-documentation-handler.ts)

The paths branch of RemoveDocumentationHandler.handle is modelled as a pure
function of the request (urls, paths) and the stored collection (a list of
points, each an id plus a url).  The single qdrant scroll call is modelled
as filtering the stored points whose url contains "file://" and truncating
to the hard-coded limit of 100 (no offset, no further page is requested).
Node path.normalize is the identity on the already-canonical slash paths
handled here; normalizePathForComparison therefore performs the remaining
backslash-to-slash and lower-casing steps.  String searching is done over
character lists so every definition evaluates by kernel reduction. -/

/-- JS pat-in-s substring test (String.prototype.includes), over char
lists. -/
def listIsInfixOf (pat : List Char) : List Char → Bool
  | [] => pat.isEmpty
  | c :: tail => pat.isPrefixOf (c :: tail) || listIsInfixOf pat tail

/-- JS s.includes(pat). -/
def jsIncludes (s pat : String) : Bool := listIsInfixOf pat.toList s.toList

/-- JS s.endsWith(pat). -/
def jsEndsWith (s pat : String) : Bool := pat.toList.isSuffixOf s.toList

/-- normalizePathForComparison:
path.normalize(p).replace(/\\/g, '/').toLowerCase(). -/
def normalizePathForComparison (p : String) : String :=
  String.mk (p.toList.map (fun c => Char.toLower (if c = '\\' then '/' else c)))

/-- POSIX path.isAbsolute: the path starts with a slash. -/
def isAbsolutePath (p : String) : Bool := p.toList.head? == some '/'

/-- payload.url.replace('file://', ''): JS replaces the first occurrence;
the stored urls carry the scheme as a prefix. -/
def stripFileScheme (url : String) : String :=
  if ("file://".toList).isPrefixOf url.toList then String.mk (url.toList.drop 7)
  else url

/-- One stored vector point: its id and its payload url. -/
structure StoredPoint where
  id : Nat
  url : String
deriving DecidableEq, Repr

/-- The normalized stored path of a point:
normalizePathForComparison(payload.url.replace('file://', '')). -/
def storedPath (pt : StoredPoint) : String :=
  normalizePathForComparison (stripFileScheme pt.url)

/-- The candidate-matching predicate of the handler for one input path p
against one normalized stored path sp: absolute inputs match exactly;
relative inputs match when sp ends with '/' + input (file match), or sp
contains '/' + input + '/' (directory-segment match), or sp equals the
input verbatim. -/
def candMatchInput (p sp : String) : Bool :=
  if isAbsolutePath p then sp == normalizePathForComparison p
  else
    jsEndsWith sp ("/" ++ normalizePathForComparison p) ||
    jsIncludes sp ("/" ++ normalizePathForComparison p ++ "/") ||
    sp == normalizePathForComparison p

/-- paths.some(p => ...): some input path matches the stored path. -/
def matchesAnyPath (paths : List String) (sp : String) : Bool :=
  paths.any (fun p => candMatchInput p sp)

/-- The scroll call: filter must url match text "file://", limit 100,
no offset — a single page of at most 100 file points. -/
def scrollFilePoints (stored : List StoredPoint) : List StoredPoint :=
  (stored.filter (fun pt => jsIncludes pt.url "file://")).take 100

/-- searchResults.points.filter(...): the match candidates. -/
def filteredResults (paths : List String) (stored : List StoredPoint) :
    List StoredPoint :=
  (scrollFilePoints stored).filter (fun pt => matchesAnyPath paths (storedPath pt))

/-- The characters of l before the first occurrence of pat:
s.substring(0, s.indexOf(pat)), defined when pat occurs in l. -/
def takeBeforeMatch (pat : List Char) : List Char → List Char
  | [] => []
  | c :: cs => if pat.isPrefixOf (c :: cs) then [] else c :: takeBeforeMatch pat cs

/-- storedPath.substring(0, storedPath.indexOf('/' + seg + '/')): the parent
location above an occurrence of seg as a directory segment. -/
def parentBeforeSeg (sp seg : String) : String :=
  String.mk (takeBeforeMatch ("/" ++ seg ++ "/").toList sp.toList)

/-- Add x to a JS Set modelled as a duplicate-free list in insertion
order. -/
def dedupAppend (l : List String) (x : String) : List String :=
  if x ∈ l then l else l ++ [x]

/-- dirMatches.set(key, matches.add(loc)): update the association list that
models the insertion-ordered JS Map of Sets. -/
def addDirMatch : List (String × List String) → String → String →
    List (String × List String)
  | [], key, loc => [(key, [loc])]
  | (k, locs) :: rest, key, loc =>
      if k == key then (k, dedupAppend locs loc) :: rest
      else (k, locs) :: addDirMatch rest key loc

/-- The inner loop of the ambiguity scan over the input paths: for each
input path that is not absolute and occurs in the record's stored path as a
directory segment, record the parent location under the normalized input. -/
def dirMatchStep (sp : String) : List (String × List String) → List String →
    List (String × List String)
  | m, [] => m
  | m, p :: ps =>
      dirMatchStep sp
        (if isAbsolutePath p then m
         else
           if jsIncludes sp ("/" ++ normalizePathForComparison p ++ "/") then
             addDirMatch m (normalizePathForComparison p)
               (parentBeforeSeg sp (normalizePathForComparison p))
           else m)
        ps

/-- The dirMatches map built over all filtered records. -/
def dirMatchesOf (paths : List String) (filtered : List StoredPoint) :
    List (String × List String) :=
  filtered.foldl (fun m pt => dirMatchStep (storedPath pt) m paths) []

/-- ambiguousDirs: the entries of dirMatches with more than one distinct
parent location. -/
def ambiguousDirsOf (paths : List String) (filtered : List StoredPoint) :
    List (String × List String) :=
  (dirMatchesOf paths filtered).filter (fun e => e.2.length > 1)

/-- uniqueFiles.set(filePath, [...existing, {id}]). -/
def addFileId : List (String × List Nat) → String → Nat →
    List (String × List Nat)
  | [], key, i => [(key, [i])]
  | (k, ids) :: rest, key, i =>
      if k == key then (k, ids ++ [i]) :: rest
      else (k, ids) :: addFileId rest key i

/-- Group the filtered chunks by their (un-normalized) file path
payload.url.replace('file://', ''). -/
def uniqueFilesOf (filtered : List StoredPoint) : List (String × List Nat) :=
  filtered.foldl (fun m pt => addFileId m (stripFileScheme pt.url) pt.id) []

/-- Node path.basename for the slash-separated paths at hand: the last
non-empty slash-separated segment. -/
def jsBasename (p : String) : String :=
  (((splitOnCharAux '/' p.toList []).filter (fun s => s ≠ "")).getLast?).getD p

/-- filesByName: group the unique file paths by their basename, recording
each distinct path once per name. -/
def filesByNameOf (uniq : List (String × List Nat)) : List (String × List String) :=
  uniq.foldl (fun m e => addDirMatch m (jsBasename e.1) e.1) []

/-- duplicates: the names bound to more than one distinct full path. -/
def duplicatesOf (uniq : List (String × List Nat)) : List (String × List String) :=
  (filesByNameOf uniq).filter (fun e => e.2.length > 1)

/-- The terminal outcome of a removal request.  Only the `deleted` and
`deletedUrls` outcomes issue a qdrant delete call; every other outcome is a
rejection thrown before the delete, leaving the store untouched. -/
inductive RemoveOutcome where
  | invalidArgs
  | notFound (paths : List String)
  | ambiguous (dirs : List (String × List String))
  | duplicateNames (files : List (String × List String))
  | deleted (pointIds : List Nat) (urls : List String)
  | deletedUrls (urls : List String)
deriving DecidableEq, Repr

/-- The paths branch of handle: scroll, filter, reject when nothing
matched, reject ambiguous directory matches, reject duplicate basenames,
and only then delete the filtered point ids (plus any literal url
matches). -/
def removeDocumentationByPaths (paths urls : List String)
    (stored : List StoredPoint) : RemoveOutcome :=
  if (filteredResults paths stored).length = 0 then .notFound paths
  else if (ambiguousDirsOf paths (filteredResults paths stored)).length > 0 then
    .ambiguous (ambiguousDirsOf paths (filteredResults paths stored))
  else if (duplicatesOf (uniqueFilesOf (filteredResults paths stored))).length > 0 then
    .duplicateNames (duplicatesOf (uniqueFilesOf (filteredResults paths stored)))
  else .deleted ((filteredResults paths stored).map (fun pt => pt.id)) urls

/-- RemoveDocumentationHandler.handle: validate the arguments, run the
paths branch when paths were supplied, otherwise the urls-only branch. -/
def removeDocumentationHandle (urls paths : List String)
    (stored : List StoredPoint) : RemoveOutcome :=
  if urls.length = 0 ∧ paths.length = 0 then .invalidArgs
  else if 0 < paths.length then removeDocumentationByPaths paths urls stored
  else
    let urlPoints := (stored.filter (fun pt => urls.any (fun u => pt.url == u))).take 100
    if urlPoints.length = 0 then .notFound urls
    else .deletedUrls urls

/-- The distinct parent locations, in first-appearance order, under which a
directory segment seg occurs among the filtered records, continuing from an
already-collected accumulator. -/
def dirParentsFrom (seg : String) : List String → List StoredPoint → List String
  | acc, [] => acc
  | acc, pt :: rest =>
      dirParentsFrom seg
        (if jsIncludes (storedPath pt) ("/" ++ seg ++ "/") then
          dedupAppend acc (parentBeforeSeg (storedPath pt) seg)
         else acc)
        rest

/-- The distinct parent locations of seg among the filtered records. -/
def dirParents (seg : String) (filtered : List StoredPoint) : List String :=
  dirParentsFrom seg [] filtered

/-- Lookup in the association list modelling the JS Map: the value bound to
k, or [] when k is absent. -/
def assocValue (m : List (String × List String)) (k : String) : List String :=
  match m.find? (fun e => e.1 == k) with
  | none => []
  | some e => e.2

/-- Some input path is relative and normalizes to k — the condition under
which the dirMatches scan can touch the key k at all. -/
def pathsHasKey (paths : List String) (k : String) : Bool :=
  paths.any (fun p => !isAbsolutePath p && (normalizePathForComparison p == k))

theorem dedupAppend_idem (l : List String) (x : String) :
    dedupAppend (dedupAppend l x) x = dedupAppend l x := by
  by_cases h : x ∈ l <;> simp [dedupAppend, h]

theorem assocValue_addDirMatch_self (m : List (String × List String))
    (k loc : String) :
    assocValue (addDirMatch m k loc) k = dedupAppend (assocValue m k) loc := by
  induction m with
  | nil => simp [assocValue, addDirMatch, List.find?, dedupAppend]
  | cons hd tl ih =>
      obtain ⟨k2, locs⟩ := hd
      by_cases h : k2 = k
      · subst h
        simp [assocValue, addDirMatch, List.find?]
      · simp only [addDirMatch, beq_iff_eq, if_neg h]
        simp only [assocValue, List.find?]
        rw [show ((k2, locs).1 == k) = false by simpa using h]
        exact ih

theorem assocValue_addDirMatch_other (m : List (String × List String))
    (k loc q : String) (h : q ≠ k) :
    assocValue (addDirMatch m k loc) q = assocValue m q := by
  induction m with
  | nil =>
      simp only [addDirMatch, assocValue, List.find?]
      rw [show ((k, [loc]).1 == q) = false by simpa using (Ne.symm h)]
  | cons hd tl ih =>
      obtain ⟨k2, locs⟩ := hd
      by_cases h2 : k2 = k
      · subst h2
        simp only [addDirMatch, beq_self_eq_true, if_pos]
        simp only [assocValue, List.find?]
        rw [show (k2 == q) = false by simpa using fun e => h e.symm]
      · simp only [addDirMatch, beq_iff_eq, if_neg h2]
        by_cases h3 : k2 = q
        · subst h3
          simp [assocValue, List.find?]
        · simp only [assocValue, List.find?]
          rw [show ((k2, locs).1 == q) = false by simpa using h3]
          exact ih

theorem assocValue_dirMatchStep (k sp : String) :
    ∀ (paths : List String) (m : List (String × List String)),
      assocValue (dirMatchStep sp m paths) k =
        if pathsHasKey paths k && jsIncludes sp ("/" ++ k ++ "/") then
          dedupAppend (assocValue m k) (parentBeforeSeg sp k)
        else assocValue m k := by
  intro paths
  induction paths with
  | nil => intro m; simp [dirMatchStep, pathsHasKey]
  | cons p ps ih =>
      intro m
      rw [dirMatchStep]
      by_cases habs : isAbsolutePath p = true
      · rw [if_pos habs, ih]
        have hk : pathsHasKey (p :: ps) k = pathsHasKey ps k := by
          simp [pathsHasKey, habs]
        rw [hk]
      · rw [if_neg habs]
        by_cases hkey : normalizePathForComparison p = k
        · rw [hkey]
          have hk : pathsHasKey (p :: ps) k = true := by
            simp [pathsHasKey]
            exact Or.inl ⟨by simpa using habs, hkey⟩
          rw [hk]
          by_cases hinc : jsIncludes sp ("/" ++ k ++ "/") = true
          · rw [if_pos hinc, ih, assocValue_addDirMatch_self, hinc]
            cases hps : pathsHasKey ps k <;> simp [dedupAppend_idem]
          · rw [if_neg hinc, ih]
            rw [Bool.not_eq_true] at hinc
            simp [hinc]
        · have hk : pathsHasKey (p :: ps) k = pathsHasKey ps k := by
            simp [pathsHasKey, hkey]
          by_cases hinc : jsIncludes sp
              ("/" ++ normalizePathForComparison p ++ "/") = true
          · rw [if_pos hinc, ih,
              assocValue_addDirMatch_other _ _ _ _ (fun e => hkey e.symm), hk]
          · rw [if_neg hinc, ih, hk]

theorem assocValue_dirMatches_fold (paths : List String) (k : String)
    (hkey : pathsHasKey paths k = true) :
    ∀ (filtered : List StoredPoint) (m : List (String × List String)),
      assocValue
          (filtered.foldl (fun m pt => dirMatchStep (storedPath pt) m paths) m) k =
        dirParentsFrom k (assocValue m k) filtered := by
  intro filtered
  induction filtered with
  | nil => intro m; simp [dirParentsFrom]
  | cons pt rest ih =>
      intro m
      rw [List.foldl_cons, ih, assocValue_dirMatchStep, hkey, dirParentsFrom]
      simp only [Bool.true_and]

theorem assocValue_dirMatchesOf (paths : List String) (k : String)
    (filtered : List StoredPoint) (hkey : pathsHasKey paths k = true) :
    assocValue (dirMatchesOf paths filtered) k = dirParents k filtered := by
  rw [dirMatchesOf, assocValue_dirMatches_fold paths k hkey filtered []]
  rfl

theorem find?_eq_some_of_assocValue_ne_nil (m : List (String × List String))
    (k : String) (h : assocValue m k ≠ []) :
    m.find? (fun e => e.1 == k) = some (k, assocValue m k) := by
  cases hf : m.find? (fun e => e.1 == k) with
  | none => exact absurd (by simp [assocValue, hf]) h
  | some e =>
      have h1 : (e.1 == k) = true :=
        List.find?_some (p := fun e : String × List String => e.1 == k) hf
      have h2 : e.1 = k := by simpa using h1
      have h3 : assocValue m k = e.2 := by simp [assocValue, hf]
      rw [h3, ← h2]

/-- C4: a removal request with a relative input that occurs as a directory
segment under more than one distinct parent location among the match
candidates is rejected with the ambiguity diagnostic listing every such
location (the entry for the input carries all of its distinct parent
locations), and no delete outcome is produced. -/
theorem remove_ambiguous_dir_rejected (paths urls : List String)
    (stored : List StoredPoint) (p : String) (hp : p ∈ paths)
    (habs : isAbsolutePath p = false)
    (hamb : 2 ≤ (dirParents (normalizePathForComparison p)
      (filteredResults paths stored)).length) :
    removeDocumentationByPaths paths urls stored =
      .ambiguous (ambiguousDirsOf paths (filteredResults paths stored))
    ∧ (normalizePathForComparison p,
        dirParents (normalizePathForComparison p) (filteredResults paths stored)) ∈
      ambiguousDirsOf paths (filteredResults paths stored)
    ∧ ∀ (ids : List Nat) (us : List String),
        removeDocumentationByPaths paths urls stored ≠ .deleted ids us := by
  have hkey : pathsHasKey paths (normalizePathForComparison p) = true := by
    simp only [pathsHasKey, List.any_eq_true]
    exact ⟨p, hp, by simp [habs]⟩
  have hval := assocValue_dirMatchesOf paths (normalizePathForComparison p)
    (filteredResults paths stored) hkey
  have hne : dirParents (normalizePathForComparison p)
      (filteredResults paths stored) ≠ [] := by
    intro h0
    rw [h0] at hamb
    simp at hamb
  have hfind := find?_eq_some_of_assocValue_ne_nil
    (dirMatchesOf paths (filteredResults paths stored))
    (normalizePathForComparison p) (by rw [hval]; exact hne)
  rw [hval] at hfind
  have hmem : (normalizePathForComparison p,
      dirParents (normalizePathForComparison p) (filteredResults paths stored)) ∈
      dirMatchesOf paths (filteredResults paths stored) :=
    List.mem_of_find?_eq_some hfind
  have hmem2 : (normalizePathForComparison p,
      dirParents (normalizePathForComparison p) (filteredResults paths stored)) ∈
      ambiguousDirsOf paths (filteredResults paths stored) := by
    rw [ambiguousDirsOf]
    refine List.mem_filter.mpr ⟨hmem, ?_⟩
    simp only [decide_eq_true_eq]
    omega
  have hflen : (filteredResults paths stored).length ≠ 0 := by
    intro h0
    have h1 : filteredResults paths stored = [] :=
      List.eq_nil_of_length_eq_zero h0
    rw [h1] at hne
    exact hne rfl
  have hambpos : (ambiguousDirsOf paths (filteredResults paths stored)).length > 0 :=
    List.length_pos.mpr (List.ne_nil_of_mem hmem2)
  have hmain : removeDocumentationByPaths paths urls stored =
      .ambiguous (ambiguousDirsOf paths (filteredResults paths stored)) := by
    rw [removeDocumentationByPaths, if_neg hflen, if_pos hambpos]
  exact ⟨hmain, hmem2, fun ids us h => by rw [hmain] at h; exact absurd h (by simp)⟩

/-- C4, witness: the spec scenario — stored documents a/x/file.md and
b/x/file.md, removal request "x": the request is rejected as ambiguous,
with the entry for "x" listing both parent locations, and no delete
outcome. -/
theorem remove_ambiguous_dir_rejected_witness :
    removeDocumentationByPaths ["x"] []
        [⟨1, "file://a/x/file.md"⟩, ⟨2, "file://b/x/file.md"⟩] =
      .ambiguous (ambiguousDirsOf ["x"]
        (filteredResults ["x"]
          [⟨1, "file://a/x/file.md"⟩, ⟨2, "file://b/x/file.md"⟩]))
    ∧ (normalizePathForComparison "x",
        dirParents (normalizePathForComparison "x")
          (filteredResults ["x"]
            [⟨1, "file://a/x/file.md"⟩, ⟨2, "file://b/x/file.md"⟩])) ∈
      ambiguousDirsOf ["x"]
        (filteredResults ["x"]
          [⟨1, "file://a/x/file.md"⟩, ⟨2, "file://b/x/file.md"⟩])
    ∧ ∀ (ids : List Nat) (us : List String),
        removeDocumentationByPaths ["x"] []
            [⟨1, "file://a/x/file.md"⟩, ⟨2, "file://b/x/file.md"⟩] ≠
          .deleted ids us :=
  remove_ambiguous_dir_rejected ["x"] []
    [⟨1, "file://a/x/file.md"⟩, ⟨2, "file://b/x/file.md"⟩] "x"
    (by decide) (by decide) (by decide)

/-- C5: for a relative (non-absolute) removal input p, the handler's
candidate predicate against a stored normalized path sp holds exactly when
sp ends with "/" + p, or sp contains "/" + p + "/", or sp equals p verbatim
(p taken after normalization); in particular "guide.md" matches the stored
"docs/guide.md" but no stored path ending differently in "guide.md". -/
theorem remove_relative_match_spec (p sp : String)
    (h : isAbsolutePath p = false) :
    (candMatchInput p sp =
      (jsEndsWith sp ("/" ++ normalizePathForComparison p) ||
        jsIncludes sp ("/" ++ normalizePathForComparison p ++ "/") ||
        sp == normalizePathForComparison p))
    ∧ candMatchInput "guide.md" "docs/guide.md" = true
    ∧ candMatchInput "guide.md" "docs/myguide.md" = false
    ∧ candMatchInput "guide.md" "docs/guide.md.bak" = false := by
  refine ⟨?_, by decide, by decide, by decide⟩
  rw [candMatchInput, if_neg (by simp [h])]

/-- C5, witness: instantiated at the relative input "guide.md" and the
stored path "docs/guide.md". -/
theorem remove_relative_match_spec_witness :
    (candMatchInput "guide.md" "docs/guide.md" =
      (jsEndsWith "docs/guide.md" ("/" ++ normalizePathForComparison "guide.md") ||
        jsIncludes "docs/guide.md"
          ("/" ++ normalizePathForComparison "guide.md" ++ "/") ||
        "docs/guide.md" == normalizePathForComparison "guide.md"))
    ∧ candMatchInput "guide.md" "docs/guide.md" = true
    ∧ candMatchInput "guide.md" "docs/myguide.md" = false
    ∧ candMatchInput "guide.md" "docs/guide.md.bak" = false :=
  remove_relative_match_spec "guide.md" "docs/guide.md" (by decide)

/-- C9: the match candidates of a removal-by-paths request all come from
the single scroll page — the first 100 stored points whose url contains
"file://" (hard-coded limit, no offset, no further page) — and when no
point of that page matches the request, the handler rejects it as not
found, even if a matching file:// point exists beyond the first 100. -/
theorem remove_scroll_limit_100 (paths urls : List String)
    (stored : List StoredPoint) :
    (∀ pt ∈ filteredResults paths stored,
      pt ∈ (stored.filter (fun pt => jsIncludes pt.url "file://")).take 100)
    ∧ ((∀ pt ∈ scrollFilePoints stored,
          matchesAnyPath paths (storedPath pt) = false) →
        removeDocumentationByPaths paths urls stored = .notFound paths) := by
  constructor
  · intro pt hpt
    exact (List.mem_filter.mp hpt).1
  · intro hnone
    have hnil : filteredResults paths stored = [] := by
      rw [filteredResults]
      rw [List.filter_eq_nil]
      intro pt hpt
      simp [hnone pt hpt]
    rw [removeDocumentationByPaths, if_pos (by rw [hnil]; rfl)]

/-- C9, witness: a store of 101 file:// points whose only match for
"zzz.md" is the 101st: the scroll page misses it and the request is
rejected as not found although the matching document exists in the
store. -/
theorem remove_scroll_limit_100_witness :
    removeDocumentationByPaths ["zzz.md"] []
        (List.replicate 100 (StoredPoint.mk 0 "file://d/a.md") ++
          [⟨100, "file://d/zzz.md"⟩]) =
      .notFound ["zzz.md"] :=
  (remove_scroll_limit_100 ["zzz.md"] []
      (List.replicate 100 (StoredPoint.mk 0 "file://d/a.md") ++
        [⟨100, "file://d/zzz.md"⟩])).2
    (by decide)

end RagDocs
